import Mathlib

/-!
# Verification of the Mercury runtime context scheduler

Shallow embedding of `runtime/mercury_context.h` (the context data structure,
the context-switch macros `MR_save_context` / `MR_load_context`, the heap
reclamation checkpoint macros, the sync-term fork/join macros, and the
scheduler entry points declared there).

Configuration of the embedding: `MR_HIGHLEVEL_CODE` off, `MR_USE_TRAIL` on,
`MR_USE_MINIMAL_MODEL_STACK_COPY` off, `MR_THREAD_SAFE` off (single engine,
so `MR_LOCK` / `MR_UNLOCK` in the sync-term macros are no-ops and each join
is atomic), and `MR_CONSERVATIVE_GC` given by a Boolean parameter `gc`.

Pointers (`MR_Word *`, `MR_Code *`, `MR_TrailEntry *`, `MR_MemoryZone *`)
are modelled as natural-number addresses, with `0` playing the role of
`NULL`.  The C `int` field `MR_st_count` of a sync term is modelled as
`Int`.  The C `assert` calls in the join macros are modelled as `.error`
results of `Except`.
-/

namespace MercuryContext

/-- The fields of `MR_Context_Struct` in the chosen configuration.
`MR_ctxt_next` is omitted: the queues it implements (free list, run queue,
suspension lists) are modelled as Lean lists of contexts.  `MR_ctxt_id` is
a `Nat` standing for the identity of the context (in C it is the address of
the structure; the `const char *` id string is a debugging aid only). -/
structure MR_Context where
  MR_ctxt_id : Nat
  MR_ctxt_resume : Nat
  MR_ctxt_succip : Nat
  MR_ctxt_sp : Nat
  MR_ctxt_detstack_zone : Nat
  MR_ctxt_nondetstack_zone : Nat
  MR_ctxt_maxfr : Nat
  MR_ctxt_curfr : Nat
  MR_ctxt_trail_zone : Nat
  MR_ctxt_trail_ptr : Nat
  MR_ctxt_ticket_counter : Nat
  MR_ctxt_ticket_high_water : Nat
  MR_ctxt_hp : Nat
  MR_ctxt_min_hp_rec : Nat
deriving DecidableEq

/-- The engine state read and written by `MR_save_context` and
`MR_load_context`: the global (virtual machine) registers `MR_succip`,
`MR_sp`, `MR_maxfr`, `MR_curfr`, the trail globals, the heap globals
`MR_hp` and `MR_min_hp_rec`, and the zone pointers of
`MR_ENGINE(MR_eng_context)` that the two macros transfer. -/
structure EngineRegs where
  MR_succip : Nat
  MR_sp : Nat
  MR_maxfr : Nat
  MR_curfr : Nat
  MR_trail_zone : Nat
  MR_trail_ptr : Nat
  MR_ticket_counter : Nat
  MR_ticket_high_water : Nat
  MR_eng_detstack_zone : Nat
  MR_eng_nondetstack_zone : Nat
  MR_hp : Nat
  MR_min_hp_rec : Nat
deriving DecidableEq

/-- `MR_set_min_heap_reclamation_point(ctxt)`: when `MR_CONSERVATIVE_GC` is
defined (`gc = true`) the macro expands to `do { } while (0)`; otherwise it
compares `MR_hp` with `ctxt->MR_ctxt_hp` and either resets both
`MR_min_hp_rec` and `ctxt->MR_ctxt_min_hp_rec` to `MR_hp`, or restores
`MR_min_hp_rec` from the context.  Returns the updated engine registers and
the updated context. -/
def MR_set_min_heap_reclamation_point (gc : Bool) (e : EngineRegs) (c : MR_Context) :
    EngineRegs × MR_Context :=
  if gc then (e, c)
  else if e.MR_hp ≠ c.MR_ctxt_hp ∨ c.MR_ctxt_hp = 0 then
    ({ e with MR_min_hp_rec := e.MR_hp }, { c with MR_ctxt_min_hp_rec := e.MR_hp })
  else
    ({ e with MR_min_hp_rec := c.MR_ctxt_min_hp_rec }, c)

/-- `MR_save_hp_in_context(ctxt)`: a no-op under conservative GC, otherwise
stores `MR_hp` and `MR_min_hp_rec` into the context. -/
def MR_save_hp_in_context (gc : Bool) (e : EngineRegs) (c : MR_Context) : MR_Context :=
  if gc then c
  else { c with MR_ctxt_hp := e.MR_hp, MR_ctxt_min_hp_rec := e.MR_min_hp_rec }

/-- `MR_load_context(cptr)`: copies the saved registers, trail state and
zone pointers from the context into the engine, then runs
`MR_set_min_heap_reclamation_point` on the context.  Returns the updated
engine registers and the (possibly updated) context. -/
def MR_load_context (gc : Bool) (e : EngineRegs) (c : MR_Context) :
    EngineRegs × MR_Context :=
  let e1 : EngineRegs :=
    { e with
      MR_succip := c.MR_ctxt_succip
      MR_sp := c.MR_ctxt_sp
      MR_maxfr := c.MR_ctxt_maxfr
      MR_curfr := c.MR_ctxt_curfr
      MR_trail_zone := c.MR_ctxt_trail_zone
      MR_trail_ptr := c.MR_ctxt_trail_ptr
      MR_ticket_counter := c.MR_ctxt_ticket_counter
      MR_ticket_high_water := c.MR_ctxt_ticket_high_water
      MR_eng_detstack_zone := c.MR_ctxt_detstack_zone
      MR_eng_nondetstack_zone := c.MR_ctxt_nondetstack_zone }
  MR_set_min_heap_reclamation_point gc e1 c

/-- `MR_save_context(cptr)`: copies the engine registers, trail state and
the engine's zone pointers into the context, then runs
`MR_save_hp_in_context`. -/
def MR_save_context (gc : Bool) (e : EngineRegs) (c : MR_Context) : MR_Context :=
  let c1 : MR_Context :=
    { c with
      MR_ctxt_succip := e.MR_succip
      MR_ctxt_sp := e.MR_sp
      MR_ctxt_maxfr := e.MR_maxfr
      MR_ctxt_curfr := e.MR_curfr
      MR_ctxt_trail_zone := e.MR_trail_zone
      MR_ctxt_trail_ptr := e.MR_trail_ptr
      MR_ctxt_ticket_counter := e.MR_ticket_counter
      MR_ctxt_ticket_high_water := e.MR_ticket_high_water
      MR_ctxt_detstack_zone := e.MR_eng_detstack_zone
      MR_ctxt_nondetstack_zone := e.MR_eng_nondetstack_zone }
  MR_save_hp_in_context gc e c1

/-- `MR_Sync_Term_Struct`: the countdown counter (`int` in C, so `Int`
here) and the `MR_st_parent` pointer, modelled as an optional context
value (`none` is `NULL`). -/
structure MR_SyncTerm where
  MR_st_count : Int
  MR_st_parent : Option MR_Context
deriving DecidableEq

/-- `MR_init_sync_term(sync_term, nbranches)`: sets the count to
`nbranches` and the parent to `NULL` (the mutex initialisation is a no-op
in the single-engine configuration). -/
def MR_init_sync_term (nbranches : Int) : MR_SyncTerm :=
  { MR_st_count := nbranches, MR_st_parent := none }

/-- The observable operations a join macro performs after updating the
sync term: `MR_schedule` of a context, `MR_destroy_context` of a context,
`MR_GOTO` to a code address, and the tail call to `MR_runnext()`. -/
inductive MR_Action where
  | schedule (c : MR_Context)
  | destroy (c : MR_Context)
  | goto (target : Nat)
  | runnext
deriving DecidableEq

/-- `MR_join_and_terminate(sync_term)`: decrements `MR_st_count`; if the
new count is zero, asserts `MR_st_parent != NULL` and schedules the
parent; otherwise asserts the new count is positive.  In either successful
branch it then destroys the calling context (`self`, the engine's
`MR_eng_this_context`) and falls into `MR_runnext()`.  A failed `assert`
is modelled as an `.error` result. -/
def MR_join_and_terminate (st : MR_SyncTerm) (self : MR_Context) :
    Except String (MR_SyncTerm × List MR_Action) :=
  let cnt := st.MR_st_count - 1
  if cnt = 0 then
    match st.MR_st_parent with
    | none => .error "assert failed: st->MR_st_parent != NULL"
    | some p =>
        .ok ({ st with MR_st_count := cnt },
             [.schedule p, .destroy self, .runnext])
  else if 0 < cnt then
    .ok ({ st with MR_st_count := cnt }, [.destroy self, .runnext])
  else
    .error "assert failed: st->MR_st_count > 0"

/-- `MR_join_and_continue(sync_term, where_to)`: decrements `MR_st_count`;
if the new count is zero, jumps to `where_to` in the same context (no
save, no context switch).  Otherwise asserts the new count is positive,
saves the calling context with `MR_save_context`, sets its resume address
to `where_to`, publishes it as `MR_st_parent`, and falls into
`MR_runnext()`.  Returns the sync term, the calling context as it stands
afterwards, and the actions performed. -/
def MR_join_and_continue (gc : Bool) (e : EngineRegs) (st : MR_SyncTerm)
    (self : MR_Context) (whereTo : Nat) :
    Except String (MR_SyncTerm × MR_Context × List MR_Action) :=
  let cnt := st.MR_st_count - 1
  if cnt = 0 then
    .ok ({ st with MR_st_count := cnt }, self, [.goto whereTo])
  else if 0 < cnt then
    let self1 := { MR_save_context gc e self with MR_ctxt_resume := whereTo }
    .ok ({ MR_st_count := cnt, MR_st_parent := some self1 }, self1, [.runnext])
  else
    .error "assert failed: st->MR_st_count > 0"

/-- A call in a fork/join interleaving: each of the `N` branches of a
parallel conjunction finishes with either `MR_join_and_terminate` or
`MR_join_and_continue`, performed by that branch's context. -/
inductive JoinCall where
  | jterm (self : MR_Context)
  | jcont (self : MR_Context) (whereTo : Nat)
deriving DecidableEq

/-- Whether a join call is a `MR_join_and_continue`. -/
def JoinCall.isCont : JoinCall → Bool
  | .jcont _ _ => true
  | .jterm _ => false

/-- The identity of the first `MR_join_and_continue` caller in a list of
join calls (`0` if there is none). -/
def contCallerId : List JoinCall → Nat
  | [] => 0
  | .jcont c _ :: _ => c.MR_ctxt_id
  | .jterm _ :: rest => contCallerId rest

/-- The identities of the contexts resumed by one join call: contexts
passed to `MR_schedule`, plus the caller itself when the call ends in
`MR_GOTO` (the caller continues in place). -/
def resumedIds (self : MR_Context) (acts : List MR_Action) : List Nat :=
  acts.filterMap fun a =>
    match a with
    | .schedule p => some p.MR_ctxt_id
    | .goto _ => some self.MR_ctxt_id
    | _ => none

/-- Runs a sequence of join calls against a sync term, one call after the
other (each join macro holds the term's lock for its whole body, so an
interleaving of `N` branch completions is a sequence of atomic calls).
Returns the final sync term and, per call, the identities of the contexts
that call resumed (scheduled or continued). -/
def runJoins (gc : Bool) (e : EngineRegs) :
    MR_SyncTerm → List JoinCall → Except String (MR_SyncTerm × List (List Nat))
  | st, [] => .ok (st, [])
  | st, .jterm c :: rest =>
    match MR_join_and_terminate st c with
    | .error s => .error s
    | .ok (st1, acts) =>
      match runJoins gc e st1 rest with
      | .error s => .error s
      | .ok (st2, rs) => .ok (st2, resumedIds c acts :: rs)
  | st, .jcont c t :: rest =>
    match MR_join_and_continue gc e st c t with
    | .error s => .error s
    | .ok (st1, _, acts) =>
      match runJoins gc e st1 rest with
      | .error s => .error s
      | .ok (st2, rs) => .ok (st2, resumedIds c acts :: rs)

/-- `MR_PendingContext_Struct`: a context blocked on a file descriptor
with a waiting mode (a bitwise union of `MR_PENDING_READ = 0x01`,
`MR_PENDING_WRITE = 0x02`, `MR_PENDING_EXEC = 0x04`, modelled as `Nat`).
The `next` pointer is omitted: the pending set is modelled as a list. -/
structure MR_PendingContext where
  context : MR_Context
  fd : Int
  waiting_mode : Nat
deriving DecidableEq

/-- Modelled from the spec: the possible outcomes of the scheduler's
dispatch loop `MR_do_runnext` — dispatch the head of the run queue,
perform a blocking readiness wait over the pending-I/O set, park waiting
for another engine to enqueue work, or flounder (fatal abort via
`MR_flounder`, which never returns). -/
inductive RunNextOutcome where
  | dispatch (c : MR_Context) (rest : List MR_Context)
  | ioWait
  | park
  | flounder
deriving DecidableEq

/-- Modelled from the spec: the bodies of `MR_do_runnext` and
`MR_flounder` are not among the given sources (`mercury_context.h` only
declares them, with the comment that `MR_flounder` aborts with a runtime
error when the runqueue is empty and no running process is working).  Per
spec section 4.3: return the head of the run queue if non-empty; else if
the pending-I/O set is non-empty, perform a blocking readiness wait; else
if no other engine is currently executing a context, flounder; else park.
`otherActive` is the number of other engines currently executing a
context. -/
def MR_do_runnext (rq : List MR_Context) (pending : List MR_PendingContext)
    (otherActive : Nat) : RunNextOutcome :=
  match rq with
  | c :: rest => .dispatch c rest
  | [] =>
    if pending = [] then
      if otherActive = 0 then .flounder else .park
    else .ioWait

/-- Modelled from the spec: the body of `MR_schedule` is not among the
given sources; per its header comment and spec section 4.3 it appends the
given context onto the end of the run queue. -/
def MR_schedule (rq : List MR_Context) (c : MR_Context) : List MR_Context :=
  rq ++ [c]

/-- Modelled from the spec: `MR_stackvar(n)` (from `mercury_stacks.h`,
not among the given sources) denotes the `n`-th topmost live slot of the
current det stack frame, the word at address `MR_sp - n`.  `mem` is the
det-stack memory of the forking context, read word by word. -/
def MR_stackvar (mem : Nat → Nat) (sp : Nat) (n : Nat) : Nat :=
  mem (sp - n)

/-- Modelled from the spec: the body of `MR_create_context` is not among
the given sources; per its header comment and spec section 4.1 it
allocates and initialises a zeroed context with fresh zones, whose
det-stack cursor starts at the base of its fresh det-stack zone
(`base`).  The zeroed heap checkpoint (`MR_ctxt_hp = 0`, i.e. `NULL`)
marks the context as never yet scheduled. -/
def MR_create_context (id : Nat) (base : Nat) : MR_Context :=
  { MR_ctxt_id := id
    MR_ctxt_resume := 0
    MR_ctxt_succip := 0
    MR_ctxt_sp := base
    MR_ctxt_detstack_zone := 0
    MR_ctxt_nondetstack_zone := 0
    MR_ctxt_maxfr := 0
    MR_ctxt_curfr := 0
    MR_ctxt_trail_zone := 0
    MR_ctxt_trail_ptr := 0
    MR_ctxt_ticket_counter := 0
    MR_ctxt_ticket_high_water := 0
    MR_ctxt_hp := 0
    MR_ctxt_min_hp_rec := 0 }

/-- The copy loop of `MR_fork_new_context`: for `i = numslots` down to
`1`, store `MR_stackvar(i)` at the new context's stack cursor and advance
the cursor.  The new context's det-stack zone (`dst`, indexed by address)
is distinct fresh memory, so the loop's writes never alias the forking
context's stack reads.  Returns the new zone contents and the final
cursor. -/
def forkCopy (src : Nat → Nat) (sp : Nat) :
    (Nat → Nat) → Nat → Nat → ((Nat → Nat) × Nat)
  | dst, dsp, 0 => (dst, dsp)
  | dst, dsp, i + 1 =>
    forkCopy src sp
      (fun a => if a = dsp then MR_stackvar src sp (i + 1) else dst a)
      (dsp + 1) i

/-- The result of a fork: the new context, its fresh det-stack zone
contents, the run queue after scheduling, and the code address at which
the forking context continues (the target of the final `MR_GOTO`). -/
structure ForkResult where
  newContext : MR_Context
  newZone : Nat → Nat
  runQueue : List MR_Context
  continueAt : Nat

/-- The `MR_fork_new_context(child, parent, numslots)` macro with its two
field-naming slips repaired (the macro as written accesses
`f_n_c_context->context_sp` and `f_n_c_context->owner_thread`, fields that
`MR_Context_Struct` does not declare, and calls `MR_create_context()`
with no arguments against its two-parameter prototype; this definition
uses the declared fields `MR_ctxt_sp` / `MR_ctxt_owner_thread` and a
fresh context, which is the behaviour the surrounding comments and the
spec describe): create a context, copy the topmost `numslots` det-stack
slots of the forking context into it, set its resume address to `child`,
schedule it, and continue at `parent`.  `srcMem` is the forking engine's
det-stack memory and `e.MR_sp` its stack cursor; `freshId` and
`freshBase` locate the fresh context and its fresh zone. -/
def MR_fork_new_context (child parent : Nat) (numslots : Nat)
    (e : EngineRegs) (srcMem : Nat → Nat) (rq : List MR_Context)
    (freshId freshBase : Nat) : ForkResult :=
  let c0 := MR_create_context freshId freshBase
  let copied := forkCopy srcMem e.MR_sp (fun _ => 0) c0.MR_ctxt_sp numslots
  let c1 := { c0 with MR_ctxt_sp := copied.2, MR_ctxt_resume := child }
  { newContext := c1
    newZone := copied.1
    runQueue := MR_schedule rq c1
    continueAt := parent }

/-! ### Concrete fixtures for witnesses and counterexamples -/

/-- A concrete engine-register state used by witnesses. -/
def testEngine : EngineRegs :=
  { MR_succip := 11
    MR_sp := 12
    MR_maxfr := 13
    MR_curfr := 14
    MR_trail_zone := 15
    MR_trail_ptr := 16
    MR_ticket_counter := 17
    MR_ticket_high_water := 18
    MR_eng_detstack_zone := 19
    MR_eng_nondetstack_zone := 20
    MR_hp := 21
    MR_min_hp_rec := 22 }

/-- A concrete context with identity 1 used by witnesses. -/
def ctxtA : MR_Context :=
  { MR_ctxt_id := 1
    MR_ctxt_resume := 31
    MR_ctxt_succip := 32
    MR_ctxt_sp := 33
    MR_ctxt_detstack_zone := 34
    MR_ctxt_nondetstack_zone := 35
    MR_ctxt_maxfr := 36
    MR_ctxt_curfr := 37
    MR_ctxt_trail_zone := 38
    MR_ctxt_trail_ptr := 39
    MR_ctxt_ticket_counter := 40
    MR_ctxt_ticket_high_water := 41
    MR_ctxt_hp := 42
    MR_ctxt_min_hp_rec := 43 }

/-- A concrete context with identity 2 used by witnesses.  Its recorded
heap pointer equals `testEngine.MR_hp`, putting a load of it on
`testEngine` in the restore branch of the heap-floor logic. -/
def ctxtB : MR_Context :=
  { ctxtA with MR_ctxt_id := 2, MR_ctxt_hp := 21 }

/-- The non-heap fields of a context: everything except `MR_ctxt_hp` and
`MR_ctxt_min_hp_rec` (the two fields guarded by `MR_CONSERVATIVE_GC` in
`MR_Context_Struct`). -/
def ctxtNonHeap (c : MR_Context) :
    Nat × Nat × Nat × Nat × Nat × Nat × Nat × Nat × Nat × Nat × Nat × Nat :=
  (c.MR_ctxt_id, c.MR_ctxt_resume, c.MR_ctxt_succip, c.MR_ctxt_sp,
   c.MR_ctxt_detstack_zone, c.MR_ctxt_nondetstack_zone, c.MR_ctxt_maxfr,
   c.MR_ctxt_curfr, c.MR_ctxt_trail_zone, c.MR_ctxt_trail_ptr,
   c.MR_ctxt_ticket_counter, c.MR_ctxt_ticket_high_water)

/-- The non-heap engine registers: everything except `MR_hp` and
`MR_min_hp_rec`. -/
def engineNonHeap (e : EngineRegs) :
    Nat × Nat × Nat × Nat × Nat × Nat × Nat × Nat × Nat × Nat :=
  (e.MR_succip, e.MR_sp, e.MR_maxfr, e.MR_curfr, e.MR_trail_zone,
   e.MR_trail_ptr, e.MR_ticket_counter, e.MR_ticket_high_water,
   e.MR_eng_detstack_zone, e.MR_eng_nondetstack_zone)

/-! ## Helper lemmas -/

/-- `MR_save_context` never writes the identity of the context it saves
into. -/
theorem MR_save_context_id (gc : Bool) (e : EngineRegs) (c : MR_Context) :
    (MR_save_context gc e c).MR_ctxt_id = c.MR_ctxt_id := by
  cases gc <;> simp [MR_save_context, MR_save_hp_in_context]

/-- A run of `MR_join_and_terminate` calls against a sync term whose
parent is already published: every call but the last resumes nothing, and
the last call resumes exactly the published parent. -/
theorem runJoins_all_jterm (gc : Bool) (e : EngineRegs) (p : MR_Context)
    (calls : List JoinCall) :
    calls ≠ [] → (∀ k ∈ calls, k.isCont = false) →
    ∀ st : MR_SyncTerm, st.MR_st_count = calls.length → st.MR_st_parent = some p →
    ∃ st2, runJoins gc e st calls =
      .ok (st2, List.replicate (calls.length - 1) [] ++ [[p.MR_ctxt_id]]) := by
  induction calls with
  | nil => intro hne; exact absurd rfl hne
  | cons k rest ih =>
    intro _ hterm st hcount hparent
    cases k with
    | jcont c t =>
      have := hterm (JoinCall.jcont c t) (List.mem_cons_self _ _)
      simp [JoinCall.isCont] at this
    | jterm c =>
      cases rest with
      | nil =>
        have h1 : st.MR_st_count - 1 = 0 := by
          simp at hcount; omega
        refine ⟨{ st with MR_st_count := 0 }, ?_⟩
        simp [runJoins, MR_join_and_terminate, h1, hparent, resumedIds]
      | cons r rs =>
        have h1 : ¬ (st.MR_st_count - 1 = 0) := by
          simp at hcount; omega
        have h2 : (0:Int) < st.MR_st_count - 1 := by
          simp at hcount; omega
        obtain ⟨st2, hrun⟩ :=
          ih (by simp)
            (fun k hk => hterm k (List.mem_cons_of_mem _ hk))
            { st with MR_st_count := st.MR_st_count - 1 }
            (by simp at hcount ⊢; omega)
            hparent
        refine ⟨st2, ?_⟩
        simp [runJoins, MR_join_and_terminate, h1, h2, hrun, resumedIds,
          List.replicate_succ]

/-- A run of join calls exactly one of which is `MR_join_and_continue`,
against a fresh sync term: every call but the last resumes nothing, and
the last call resumes exactly the continue caller — by scheduling it when
a terminate call decrements last, or by letting it continue in place when
the continue call decrements last. -/
theorem runJoins_one_cont (gc : Bool) (e : EngineRegs) (calls : List JoinCall) :
    calls.countP (fun k => k.isCont) = 1 →
    ∀ st : MR_SyncTerm, st.MR_st_count = calls.length → st.MR_st_parent = none →
    ∃ st2, runJoins gc e st calls =
      .ok (st2, List.replicate (calls.length - 1) [] ++ [[contCallerId calls]]) := by
  induction calls with
  | nil => intro hone; simp at hone
  | cons k rest ih =>
    intro hone st hcount hparent
    cases k with
    | jcont c t =>
      have hcons : (JoinCall.jcont c t :: rest).countP (fun k => k.isCont) =
          rest.countP (fun k => k.isCont) + 1 :=
        List.countP_cons_of_pos _ _ (by simp [JoinCall.isCont])
      have hrest0 : rest.countP (fun k => k.isCont) = 0 := by omega
      have hrestterm : ∀ k ∈ rest, k.isCont = false := by
        intro k hk
        have := (List.countP_eq_zero).1 hrest0 k hk
        simpa using this
      cases rest with
      | nil =>
        have h1 : st.MR_st_count - 1 = 0 := by simp at hcount; omega
        refine ⟨{ st with MR_st_count := 0 }, ?_⟩
        simp [runJoins, MR_join_and_continue, h1, resumedIds, contCallerId]
      | cons r rs =>
        have h1 : ¬ (st.MR_st_count - 1 = 0) := by simp at hcount; omega
        have h2 : (0:Int) < st.MR_st_count - 1 := by simp at hcount; omega
        have hjc : MR_join_and_continue gc e st c t =
            .ok ({ MR_st_count := st.MR_st_count - 1,
                   MR_st_parent :=
                     some { MR_save_context gc e c with MR_ctxt_resume := t } },
                 { MR_save_context gc e c with MR_ctxt_resume := t },
                 [.runnext]) := by
          simp [MR_join_and_continue, h1, h2]
        obtain ⟨st2, hrun⟩ :=
          runJoins_all_jterm gc e
            { MR_save_context gc e c with MR_ctxt_resume := t }
            (r :: rs) (by simp) hrestterm
            { MR_st_count := st.MR_st_count - 1,
              MR_st_parent :=
                some { MR_save_context gc e c with MR_ctxt_resume := t } }
            (by simp at hcount ⊢; omega)
            rfl
        have hid : ({ MR_save_context gc e c with MR_ctxt_resume := t } :
            MR_Context).MR_ctxt_id = c.MR_ctxt_id := MR_save_context_id gc e c
        rw [hid] at hrun
        refine ⟨st2, ?_⟩
        simp only [runJoins, hjc, hrun]
        simp [resumedIds, contCallerId, List.replicate_succ]
    | jterm c =>
      have hcons : (JoinCall.jterm c :: rest).countP (fun k => k.isCont) =
          rest.countP (fun k => k.isCont) :=
        List.countP_cons_of_neg _ _ (by simp [JoinCall.isCont])
      have hone' : rest.countP (fun k => k.isCont) = 1 := by omega
      cases rest with
      | nil => simp at hone'
      | cons r rs =>
        have h1 : ¬ (st.MR_st_count - 1 = 0) := by simp at hcount; omega
        have h2 : (0:Int) < st.MR_st_count - 1 := by simp at hcount; omega
        obtain ⟨st2, hrun⟩ :=
          ih hone' { st with MR_st_count := st.MR_st_count - 1 }
            (by simp at hcount ⊢; omega) hparent
        have hjt : MR_join_and_terminate st c =
            .ok ({ st with MR_st_count := st.MR_st_count - 1 },
                 [.destroy c, .runnext]) := by
          simp [MR_join_and_terminate, h1, h2]
        refine ⟨st2, ?_⟩
        simp only [runJoins, hjt, hrun]
        simp [resumedIds, contCallerId, List.replicate_succ]

/-- The copy loop of the fork advances the new stack cursor by exactly
the number of slots copied. -/
theorem forkCopy_cursor (src : Nat → Nat) (sp : Nat) :
    ∀ (i : Nat) (dst : Nat → Nat) (dsp : Nat),
      (forkCopy src sp dst dsp i).2 = dsp + i := by
  intro i
  induction i with
  | zero => intro dst dsp; simp [forkCopy]
  | succ i ih =>
    intro dst dsp
    rw [forkCopy, ih]
    omega

/-- The copy loop of the fork never writes below its starting cursor. -/
theorem forkCopy_lower (src : Nat → Nat) (sp : Nat) :
    ∀ (i : Nat) (dst : Nat → Nat) (dsp a : Nat), a < dsp →
      (forkCopy src sp dst dsp i).1 a = dst a := by
  intro i
  induction i with
  | zero => intro dst dsp a _; simp [forkCopy]
  | succ i ih =>
    intro dst dsp a ha
    rw [forkCopy, ih _ _ _ (by omega)]
    simp [Nat.ne_of_lt ha]

/-- The `j`-th word written by the fork's copy loop is
`MR_stackvar(i - j)`: the loop reproduces the topmost `i` det-stack slots
in order. -/
theorem forkCopy_slot (src : Nat → Nat) (sp : Nat) :
    ∀ (i : Nat) (dst : Nat → Nat) (dsp j : Nat), j < i →
      (forkCopy src sp dst dsp i).1 (dsp + j) = MR_stackvar src sp (i - j) := by
  intro i
  induction i with
  | zero => intro dst dsp j hj; omega
  | succ i ih =>
    intro dst dsp j hj
    cases j with
    | zero =>
      rw [forkCopy]
      have := forkCopy_lower src sp i
        (fun a => if a = dsp then MR_stackvar src sp (i + 1) else dst a)
        (dsp + 1) dsp (by omega)
      simpa using this
    | succ j =>
      rw [forkCopy]
      have haddr : dsp + (j + 1) = (dsp + 1) + j := by omega
      have hsub : i + 1 - (j + 1) = i - j := by omega
      rw [haddr, hsub]
      exact ih _ _ _ (by omega)

/-! ## Claims -/

/-- C1: on `MR_load_context` in the non-conservative-GC configuration, if
the engine's live heap pointer differs from the context's recorded heap
pointer, or the recorded heap pointer is `NULL` (first run), then both the
engine's reclamation floor `MR_min_hp_rec` and the context's recorded
floor are set to the engine's current heap pointer; otherwise the engine's
reclamation floor is set to the value previously recorded in the context
(and the context is untouched).  This holds for every context and every
engine state. -/
theorem MR_load_context_heap_floor (e : EngineRegs) (c : MR_Context) :
    ((e.MR_hp ≠ c.MR_ctxt_hp ∨ c.MR_ctxt_hp = 0) →
      (MR_load_context false e c).1.MR_min_hp_rec = e.MR_hp ∧
      (MR_load_context false e c).2.MR_ctxt_min_hp_rec = e.MR_hp) ∧
    (e.MR_hp = c.MR_ctxt_hp → c.MR_ctxt_hp ≠ 0 →
      (MR_load_context false e c).1.MR_min_hp_rec = c.MR_ctxt_min_hp_rec ∧
      (MR_load_context false e c).2 = c) := by
  simp only [MR_load_context, MR_set_min_heap_reclamation_point]
  constructor
  · intro h
    simp only [Bool.false_eq_true, if_false]
    rw [if_pos h]
    exact ⟨rfl, rfl⟩
  · intro h1 h2
    have hcond : ¬ (e.MR_hp ≠ c.MR_ctxt_hp ∨ c.MR_ctxt_hp = 0) := by
      simp [h1, h2]
    simp only [Bool.false_eq_true, if_false]
    rw [if_neg hcond]
    exact ⟨rfl, rfl⟩

/-- Witness for C1: on `testEngine` (live heap pointer 21), loading
`ctxtA` (recorded heap pointer 42) resets both floors to 21, and loading
`ctxtB` (recorded heap pointer 21) restores the engine floor from the
context. -/
theorem MR_load_context_heap_floor_witness :
    ((MR_load_context false testEngine ctxtA).1.MR_min_hp_rec = testEngine.MR_hp ∧
     (MR_load_context false testEngine ctxtA).2.MR_ctxt_min_hp_rec = testEngine.MR_hp) ∧
    ((MR_load_context false testEngine ctxtB).1.MR_min_hp_rec = ctxtB.MR_ctxt_min_hp_rec ∧
     (MR_load_context false testEngine ctxtB).2 = ctxtB) :=
  ⟨(MR_load_context_heap_floor testEngine ctxtA).1 (by decide),
   (MR_load_context_heap_floor testEngine ctxtB).2 (by decide) (by decide)⟩

/-- C2, counterexample to the claim as stated: the claim quantifies over
*any* sequence of exactly `N` calls to the two join operations.  First
input: `N = 2` and both calls are `MR_join_and_continue`.  The run
succeeds, the first caller (identity 1) is published as the resumee
(`MR_st_parent`), but the per-call resume lists are `[[], [2]]`: the
published resumee is never rescheduled nor continued (only the second
caller continues in place), contradicting "the resumee context is
rescheduled or continued exactly once".  Second input: `N = 1` and the
single call is `MR_join_and_terminate`; the run aborts on the assertion
`st->MR_st_parent != NULL` and nothing is ever resumed. -/
theorem sync_term_any_interleaving_fails :
    (runJoins false testEngine (MR_init_sync_term 2)
        [JoinCall.jcont ctxtA 7, JoinCall.jcont ctxtB 8]).map
      (fun r => (r.2, r.1.MR_st_parent.map MR_Context.MR_ctxt_id)) =
      .ok ([[], [2]], some 1) ∧
    runJoins false testEngine (MR_init_sync_term 1) [JoinCall.jterm ctxtA] =
      .error "assert failed: st->MR_st_parent != NULL" :=
  ⟨rfl, rfl⟩

/-- C2 (amended): for every sync term initialized with
`remaining-branches = N` (`N >= 1`) and resumee `none`, across any
sequence of exactly `N` join calls *of which exactly one is
`join_and_continue`* (the rest `join_and_terminate`), the continue caller
is rescheduled or continued exactly once, and that happens exactly at the
call that performs the `N`-th decrement, regardless of the order of the
calls: the first `N - 1` calls resume nothing and the last call resumes
exactly the continue caller. -/
theorem sync_term_exactness_one_continue (gc : Bool) (e : EngineRegs) (n : Nat)
    (calls : List JoinCall) (hn : 1 ≤ n) (hlen : calls.length = n)
    (hone : calls.countP (fun k => k.isCont) = 1) :
    ∃ st2, runJoins gc e (MR_init_sync_term n) calls =
      .ok (st2, List.replicate (n - 1) [] ++ [[contCallerId calls]]) := by
  subst hlen
  exact runJoins_one_cont gc e calls hone _ (by simp [MR_init_sync_term]) rfl

/-- Witness for C2 (amended): `N = 2`, a terminate call by context 2 then
a continue call by context 1; the first call resumes nothing, the second
resumes the continue caller. -/
theorem sync_term_exactness_one_continue_witness :
    ∃ st2, runJoins false testEngine (MR_init_sync_term 2)
        [JoinCall.jterm ctxtB, JoinCall.jcont ctxtA 5] =
      .ok (st2, List.replicate (2 - 1) [] ++
        [[contCallerId [JoinCall.jterm ctxtB, JoinCall.jcont ctxtA 5]]]) :=
  sync_term_exactness_one_continue false testEngine 2
    [JoinCall.jterm ctxtB, JoinCall.jcont ctxtA 5]
    (by decide) (by decide) (by decide)

/-- C3: saving a context and immediately loading it back on the same
engine with unchanged engine state reproduces the engine state bit for
bit — every register, cursor and counter, including the heap reclamation
floor (the hypothesis excludes a `NULL` live heap pointer, which the
heap-floor logic reserves as the never-scheduled marker). -/
theorem save_load_round_trip (e : EngineRegs) (c : MR_Context)
    (h : e.MR_hp ≠ 0) :
    (MR_load_context false e (MR_save_context false e c)).1 = e := by
  have hcond : ¬ (e.MR_hp ≠ e.MR_hp ∨ e.MR_hp = 0) := by simp [h]
  cases e with
  | mk succip sp maxfr curfr tz tp tc thw dz nz hp mhr =>
    simp only [MR_save_context, MR_save_hp_in_context, MR_load_context,
      MR_set_min_heap_reclamation_point, Bool.false_eq_true, if_false]
    rw [if_neg hcond]

/-- Witness for C3: the round trip on `testEngine` and `ctxtA`. -/
theorem save_load_round_trip_witness :
    (MR_load_context false testEngine (MR_save_context false testEngine ctxtA)).1 =
      testEngine :=
  save_load_round_trip testEngine ctxtA (by decide)

/-- C4: `MR_join_and_continue(term, where_to)` decrements the count; if
the count reaches zero, control transfers immediately to `where_to` in
the same, unchanged context with no save and no context switch; otherwise
the calling context is saved by `MR_save_context`, its resume address is
set to `where_to`, it is published as the term's resumee `MR_st_parent`,
and the engine proceeds to `MR_runnext()`. -/
theorem MR_join_and_continue_correct (gc : Bool) (e : EngineRegs)
    (st : MR_SyncTerm) (c : MR_Context) (t : Nat) :
    (st.MR_st_count = 1 →
      MR_join_and_continue gc e st c t =
        .ok ({ st with MR_st_count := 0 }, c, [.goto t])) ∧
    (1 < st.MR_st_count →
      MR_join_and_continue gc e st c t =
        .ok ({ MR_st_count := st.MR_st_count - 1,
               MR_st_parent := some { MR_save_context gc e c with MR_ctxt_resume := t } },
             { MR_save_context gc e c with MR_ctxt_resume := t },
             [.runnext])) := by
  constructor
  · intro h
    simp [MR_join_and_continue, h]
  · intro h
    have h1 : ¬ (st.MR_st_count - 1 = 0) := by omega
    have h2 : (0:Int) < st.MR_st_count - 1 := by omega
    simp [MR_join_and_continue, h1, h2]

/-- Witness for C4: both branches at concrete sync terms with counts 1
and 3. -/
theorem MR_join_and_continue_correct_witness :
    (MR_join_and_continue false testEngine (MR_init_sync_term 1) ctxtA 5 =
      .ok ({ MR_init_sync_term 1 with MR_st_count := 0 }, ctxtA, [.goto 5])) ∧
    (MR_join_and_continue false testEngine (MR_init_sync_term 3) ctxtA 5 =
      .ok ({ MR_st_count := (MR_init_sync_term 3).MR_st_count - 1,
             MR_st_parent :=
               some { MR_save_context false testEngine ctxtA with MR_ctxt_resume := 5 } },
           { MR_save_context false testEngine ctxtA with MR_ctxt_resume := 5 },
           [.runnext])) :=
  ⟨(MR_join_and_continue_correct false testEngine (MR_init_sync_term 1) ctxtA 5).1
     (by decide),
   (MR_join_and_continue_correct false testEngine (MR_init_sync_term 3) ctxtA 5).2
     (by decide)⟩

/-- C5: `MR_join_and_terminate(term)` decrements the count; if the count
reaches zero it schedules the term's resumee — a missing resumee at that
point is a fatal assertion abort — then destroys the calling context and
proceeds to `MR_runnext()`; if the count stays positive it only destroys
the calling context and proceeds to `MR_runnext()`.  In every successful
branch the action list ends in destroying the caller and `MR_runnext()`,
with no jump: the calling context never resumes. -/
theorem MR_join_and_terminate_correct (st : MR_SyncTerm) (c : MR_Context) :
    (st.MR_st_count = 1 → st.MR_st_parent = none →
      MR_join_and_terminate st c = .error "assert failed: st->MR_st_parent != NULL") ∧
    (∀ p, st.MR_st_count = 1 → st.MR_st_parent = some p →
      MR_join_and_terminate st c =
        .ok ({ st with MR_st_count := 0 }, [.schedule p, .destroy c, .runnext])) ∧
    (1 < st.MR_st_count →
      MR_join_and_terminate st c =
        .ok ({ st with MR_st_count := st.MR_st_count - 1 }, [.destroy c, .runnext])) := by
  refine ⟨fun h hp => ?_, fun p h hp => ?_, fun h => ?_⟩
  · simp [MR_join_and_terminate, h, hp]
  · simp [MR_join_and_terminate, h, hp]
  · have h1 : ¬ (st.MR_st_count - 1 = 0) := by omega
    have h2 : (0:Int) < st.MR_st_count - 1 := by omega
    simp [MR_join_and_terminate, h1, h2]

/-- Witness for C5: the abort branch, the schedule branch and the
plain-decrement branch at concrete sync terms. -/
theorem MR_join_and_terminate_correct_witness :
    (MR_join_and_terminate (MR_init_sync_term 1) ctxtB =
      .error "assert failed: st->MR_st_parent != NULL") ∧
    (MR_join_and_terminate { MR_st_count := 1, MR_st_parent := some ctxtA } ctxtB =
      .ok ({ MR_st_count := (0:Int), MR_st_parent := some ctxtA },
           [.schedule ctxtA, .destroy ctxtB, .runnext])) ∧
    (MR_join_and_terminate (MR_init_sync_term 3) ctxtB =
      .ok ({ MR_init_sync_term 3 with
              MR_st_count := (MR_init_sync_term 3).MR_st_count - 1 },
           [.destroy ctxtB, .runnext])) :=
  ⟨(MR_join_and_terminate_correct (MR_init_sync_term 1) ctxtB).1
     (by decide) (by decide),
   (MR_join_and_terminate_correct { MR_st_count := 1, MR_st_parent := some ctxtA }
     ctxtB).2.1 ctxtA (by decide) (by decide),
   (MR_join_and_terminate_correct (MR_init_sync_term 3) ctxtB).2.2 (by decide)⟩

/-- C6: the fork entry point as the source and spec intend it (see
`MR_fork_new_context` above for the two field-naming slips and the
wrong-arity `MR_create_context()` call that keep the macro as written
from compiling): it creates a new context, reproduces the topmost
`numslots` live values of the forking context's top det stack frame in
the new context's stack in order, sets the new context's resume address
to `child`, appends it to the run queue, and has the original context
continue immediately at `parent` with no context switch. -/
theorem MR_fork_new_context_intended_correct (child parent numslots : Nat)
    (e : EngineRegs) (srcMem : Nat → Nat) (rq : List MR_Context)
    (freshId freshBase : Nat) :
    (MR_fork_new_context child parent numslots e srcMem rq freshId
        freshBase).newContext.MR_ctxt_resume = child ∧
    (MR_fork_new_context child parent numslots e srcMem rq freshId
        freshBase).newContext.MR_ctxt_sp = freshBase + numslots ∧
    (∀ j, j < numslots →
      (MR_fork_new_context child parent numslots e srcMem rq freshId
          freshBase).newZone (freshBase + j) =
        MR_stackvar srcMem e.MR_sp (numslots - j)) ∧
    (MR_fork_new_context child parent numslots e srcMem rq freshId
        freshBase).runQueue =
      rq ++ [(MR_fork_new_context child parent numslots e srcMem rq freshId
        freshBase).newContext] ∧
    (MR_fork_new_context child parent numslots e srcMem rq freshId
        freshBase).continueAt = parent := by
  refine ⟨rfl, ?_, ?_, rfl, rfl⟩
  · simp [MR_fork_new_context, MR_create_context, forkCopy_cursor]
  · intro j hj
    simpa [MR_fork_new_context, MR_create_context] using
      forkCopy_slot srcMem e.MR_sp numslots (fun _ => 0) freshBase j hj

/-- Witness for C6: forking two slots at cursor 12 from the memory
`fun a => 100 + a` puts `MR_stackvar(1)`, the topmost slot, at offset 1
of the fresh zone based at 50. -/
theorem MR_fork_new_context_intended_correct_witness :
    (MR_fork_new_context 7 8 2 testEngine (fun a => 100 + a) [] 9 50).newZone 51 =
      MR_stackvar (fun a => 100 + a) testEngine.MR_sp (2 - 1) :=
  (MR_fork_new_context_intended_correct 7 8 2 testEngine (fun a => 100 + a) [] 9 50).2.2.1
    1 (by decide)

/-- C7: on `MR_save_context` in the non-conservative-GC configuration,
the context's recorded heap pointer is set to the engine's current heap
pointer and the context's recorded reclamation floor is set to the
engine's current reclamation floor, for every context and engine state. -/
theorem MR_save_context_saves_hp (e : EngineRegs) (c : MR_Context) :
    (MR_save_context false e c).MR_ctxt_hp = e.MR_hp ∧
    (MR_save_context false e c).MR_ctxt_min_hp_rec = e.MR_min_hp_rec := by
  simp [MR_save_context, MR_save_hp_in_context]

/-- C8: with conservative GC enabled, heap-reclamation checkpointing is
entirely skipped: `MR_save_context` leaves the context's heap fields
untouched; `MR_load_context` leaves the context untouched and the
engine's heap fields untouched; the non-heap fields transferred by
save/load are the same in both GC configurations; and the non-heap
result of save/load under conservative GC depends only on the non-heap
input state (no heap field is read). -/
theorem conservative_gc_skips_heap_checkpoint :
    (∀ (e : EngineRegs) (c : MR_Context),
      (MR_save_context true e c).MR_ctxt_hp = c.MR_ctxt_hp ∧
      (MR_save_context true e c).MR_ctxt_min_hp_rec = c.MR_ctxt_min_hp_rec) ∧
    (∀ (e : EngineRegs) (c : MR_Context),
      (MR_load_context true e c).2 = c ∧
      (MR_load_context true e c).1.MR_hp = e.MR_hp ∧
      (MR_load_context true e c).1.MR_min_hp_rec = e.MR_min_hp_rec) ∧
    (∀ (gc : Bool) (e : EngineRegs) (c : MR_Context),
      ctxtNonHeap (MR_save_context gc e c) = ctxtNonHeap (MR_save_context true e c) ∧
      engineNonHeap (MR_load_context gc e c).1 =
        engineNonHeap (MR_load_context true e c).1) ∧
    (∀ (e1 e2 : EngineRegs) (c1 c2 : MR_Context),
      engineNonHeap e1 = engineNonHeap e2 → ctxtNonHeap c1 = ctxtNonHeap c2 →
      ctxtNonHeap (MR_save_context true e1 c1) = ctxtNonHeap (MR_save_context true e2 c2) ∧
      engineNonHeap (MR_load_context true e1 c1).1 =
        engineNonHeap (MR_load_context true e2 c2).1) := by
  refine ⟨fun e c => ?_, fun e c => ?_, fun gc e c => ?_,
    fun e1 e2 c1 c2 h1 h2 => ?_⟩
  · simp [MR_save_context, MR_save_hp_in_context]
  · simp [MR_load_context, MR_set_min_heap_reclamation_point]
  · cases gc with
    | true => exact ⟨rfl, rfl⟩
    | false =>
      constructor
      · simp [MR_save_context, MR_save_hp_in_context, ctxtNonHeap]
      · simp only [MR_load_context, MR_set_min_heap_reclamation_point,
          Bool.false_eq_true, if_false]
        split <;> simp [engineNonHeap]
  · simp only [engineNonHeap, ctxtNonHeap, Prod.mk.injEq] at h1 h2
    obtain ⟨a1, a2, a3, a4, a5, a6, a7, a8, a9, a10⟩ := h1
    obtain ⟨b1, b2, b3, b4, b5, b6, b7, b8, b9, b10, b11, b12⟩ := h2
    constructor
    · simp [MR_save_context, MR_save_hp_in_context, ctxtNonHeap, *]
    · simp [MR_load_context, MR_set_min_heap_reclamation_point, engineNonHeap, *]

/-- Witness for C8: the no-heap-read part at two engine states differing
only in their heap registers and two contexts differing only in their
heap checkpoint fields. -/
theorem conservative_gc_skips_heap_checkpoint_witness :
    ctxtNonHeap
        (MR_save_context true testEngine
          { ctxtA with MR_ctxt_hp := 0, MR_ctxt_min_hp_rec := 7 }) =
      ctxtNonHeap
        (MR_save_context true { testEngine with MR_hp := 99, MR_min_hp_rec := 98 }
          ctxtA) ∧
    engineNonHeap
        (MR_load_context true testEngine
          { ctxtA with MR_ctxt_hp := 0, MR_ctxt_min_hp_rec := 7 }).1 =
      engineNonHeap
        (MR_load_context true { testEngine with MR_hp := 99, MR_min_hp_rec := 98 }
          ctxtA).1 :=
  conservative_gc_skips_heap_checkpoint.2.2.2 testEngine
    { testEngine with MR_hp := 99, MR_min_hp_rec := 98 }
    { ctxtA with MR_ctxt_hp := 0, MR_ctxt_min_hp_rec := 7 } ctxtA
    rfl rfl

/-- C9: the dispatch loop flounders exactly when the run queue is empty,
the pending-I/O set is empty, and no other engine is currently executing
a context; it never flounders while any context is runnable, any
descriptor is pending, or any other engine is active. -/
theorem MR_flounder_iff (rq : List MR_Context) (pending : List MR_PendingContext)
    (otherActive : Nat) :
    MR_do_runnext rq pending otherActive = .flounder ↔
      rq = [] ∧ pending = [] ∧ otherActive = 0 := by
  cases rq with
  | cons c rest => simp [MR_do_runnext]
  | nil =>
    by_cases hp : pending = []
    · by_cases ha : otherActive = 0 <;> simp [MR_do_runnext, hp, ha]
    · simp [MR_do_runnext, hp]

/-- Witness for C9: with everything empty and no other engine active the
loop flounders. -/
theorem MR_flounder_iff_witness : MR_do_runnext [] [] 0 = .flounder :=
  (MR_flounder_iff [] [] 0).mpr ⟨rfl, rfl, rfl⟩

/-- C10 (implicit): a join on a sync term whose count is already zero
fails the `st->MR_st_count > 0` assertion and aborts, in both
`MR_join_and_terminate` and `MR_join_and_continue`: the count never goes
negative and the resumee is never resumed a second time. -/
theorem sync_term_count_zero_aborts (gc : Bool) (e : EngineRegs)
    (st : MR_SyncTerm) (c : MR_Context) (t : Nat) (h : st.MR_st_count = 0) :
    MR_join_and_terminate st c = .error "assert failed: st->MR_st_count > 0" ∧
    MR_join_and_continue gc e st c t = .error "assert failed: st->MR_st_count > 0" := by
  have h1 : ¬ (st.MR_st_count - 1 = 0) := by omega
  have h2 : ¬ ((0:Int) < st.MR_st_count - 1) := by omega
  constructor <;> simp [MR_join_and_terminate, MR_join_and_continue, h1, h2]

/-- Witness for C10: both joins abort on a sync term initialized with
zero remaining branches. -/
theorem sync_term_count_zero_aborts_witness :
    MR_join_and_terminate (MR_init_sync_term 0) ctxtA =
      .error "assert failed: st->MR_st_count > 0" ∧
    MR_join_and_continue false testEngine (MR_init_sync_term 0) ctxtA 5 =
      .error "assert failed: st->MR_st_count > 0" :=
  sync_term_count_zero_aborts false testEngine (MR_init_sync_term 0) ctxtA 5
    (by decide)

end MercuryContext
